import Mathlib

/-!
Verification of the tp0-distribuidos lottery server against its
natural-language specification.

The development shallowly embeds the Python sources:
  * `server/app/protocol.py`   (frame codec, app variant)
  * `server/app/net.py`        (session handler / raffle, app variant)
  * `server/app/service.py`    (storage adapter)
  * `server/common/communication.py` (frame codec, common variant)
  * `server/common/server.py`  (session handler / raffle, common variant)

A socket's unread bytes are a `List Nat`; Python exceptions become
`Except` values that carry the stream position at the point of the
raise (the socket is shared mutable state, so bytes consumed inside a
failing helper stay consumed even though the caller's local `remaining`
variable is not updated — that Python behaviour is modelled exactly).
UTF-8 decoding (`bytes.decode("utf-8")` in the source) is kept opaque
as a `decode` parameter; storage (`utils.store_bets`, an external
collaborator per the spec) is an oracle `storeOk` saying whether the
call raised.
-/

namespace TP0

/-- Unread bytes of a socket, each a natural below 256. -/
abbrev ByteStream := List Nat

/-- `int.from_bytes(b, byteorder="little", signed=True)` on 4 bytes
(`struct.unpack("<i")` in the common variant). -/
def i32ofLE (b : List Nat) : Int :=
  let u := b.getD 0 0 + 256 * b.getD 1 0 + 65536 * b.getD 2 0 + 16777216 * b.getD 3 0
  if u < 2147483648 then (u : Int) else (u : Int) - 4294967296

/-- `int(value).to_bytes(4, byteorder="little", signed=True)`
(`struct.pack("<i")` in the common variant). -/
def i32ToLE (v : Int) : List Nat :=
  let u := (v % 4294967296).toNat
  [u % 256, u / 256 % 256, u / 65536 % 256, u / 16777216 % 256]

/-- The `ProtocolError` messages that matter to control flow:
`"invalid body"`, `"indicated length doesn't match body length"`,
`"invalid length"`, `"invalid opcode"` (plus recv failures, which are
also `ProtocolError` in the source). -/
inductive PError
  | invalidBody
  | lengthMismatch
  | invalidLength
  | invalidOpcode
deriving DecidableEq, Repr

/-- A read either raises `ProtocolError` (`proto`) or `EOFError`
(`eofErr`, peer closed). -/
inductive ReadErr
  | proto (e : PError)
  | eofErr
deriving DecidableEq, Repr

/-- `recv_exactly(sock, n)`: consume exactly `n` bytes or raise
`EOFError` when the peer's stream ends first. -/
def recvExactly (n : Nat) (s : ByteStream) : Except ReadErr (List Nat × ByteStream) :=
  if n ≤ s.length then .ok (s.take n, s.drop n) else .error .eofErr

/-- `read_i32(sock, remaining, opcode)`: check `remaining < 4` first
(raising the length-mismatch `ProtocolError` without consuming), then
read 4 bytes little-endian signed. Errors carry the stream after the
raise. -/
def readI32 (s : ByteStream) (remaining : Int) :
    Except (ReadErr × ByteStream) (Int × Int × ByteStream) :=
  if remaining < 4 then .error (.proto .lengthMismatch, s)
  else
    match recvExactly 4 s with
    | .error e => .error (e, [])
    | .ok (b, s1) => .ok (i32ofLE b, remaining - 4, s1)

/-- `read_string(sock, remaining, opcode)` with the UTF-8 decode left
abstract: length must be strictly positive and fit in `remaining`;
a decode failure is `invalid body`. -/
def readString (decode : List Nat → Option String) (s : ByteStream) (remaining : Int) :
    Except (ReadErr × ByteStream) (String × Int × ByteStream) :=
  match readI32 s remaining with
  | .error e => .error e
  | .ok (keyLen, r1, s1) =>
    if keyLen ≤ 0 then .error (.proto .invalidBody, s1)
    else if r1 < keyLen then .error (.proto .lengthMismatch, s1)
    else
      match recvExactly keyLen.toNat s1 with
      | .error e => .error (e, [])
      | .ok (b, s2) =>
        match decode b with
        | none => .error (.proto .invalidBody, s2)
        | some str => .ok (str, r1 - keyLen, s2)

/-- Transport-level bet exactly as `protocol.RawBet`. -/
structure RawBet where
  agency : String
  first_name : String
  last_name : String
  document : String
  birthdate : String
  number : String
deriving DecidableEq, Repr

/-- The decoded `NewBets` message: collected bets plus the `amount`
field, which is set to the raw `n_bets` counter. -/
structure NewBetsMsg where
  bets : List RawBet
  amount : Int
deriving DecidableEq, Repr

/-- `curr_bet[k] = v`: later assignments win, which the prepend +
first-match lookup below reproduces. -/
def dictInsert (m : List (String × String)) (k v : String) : List (String × String) :=
  (k, v) :: m

/-- `curr_bet[k]` / `k in curr_bet`. -/
def dictGet (m : List (String × String)) (k : String) : Option String :=
  (m.find? (fun p => p.1 == k)).map (·.2)

/-- The tuple `required` of `NewBets.__init__`. -/
def requiredKeys : List String :=
  ["AGENCIA", "NOMBRE", "APELLIDO", "DOCUMENTO", "NACIMIENTO", "NUMERO"]

/-- The pair-reading loop of `NewBets.__read_bet` (`__read_pair` called
`n_pairs` times, filling the dict). -/
def readPairsN (decode : List Nat → Option String) :
    Nat → List (String × String) → ByteStream → Int →
    Except (ReadErr × ByteStream) (List (String × String) × Int × ByteStream)
  | 0, m, s, r => .ok (m, r, s)
  | n + 1, m, s, r =>
    match readString decode s r with
    | .error e => .error e
    | .ok (k, r1, s1) =>
      match readString decode s1 r1 with
      | .error e => .error e
      | .ok (v, r2, s2) => readPairsN decode n (dictInsert m k v) s2 r2

/-- `NewBets.__read_bet`: read `n_pairs`, insist it is 6, read the six
pairs, check the required keys, build the `RawBet`. -/
def readBet (decode : List Nat → Option String) (s : ByteStream) (r : Int) :
    Except (ReadErr × ByteStream) (RawBet × Int × ByteStream) :=
  match readI32 s r with
  | .error e => .error e
  | .ok (nPairs, r1, s1) =>
    if nPairs ≠ 6 then .error (.proto .invalidBody, s1)
    else
      match readPairsN decode nPairs.toNat [] s1 r1 with
      | .error e => .error e
      | .ok (m, r2, s2) =>
        if requiredKeys.all (fun k => (dictGet m k).isSome) then
          .ok
            (⟨(dictGet m "AGENCIA").getD "", (dictGet m "NOMBRE").getD "",
              (dictGet m "APELLIDO").getD "", (dictGet m "DOCUMENTO").getD "",
              (dictGet m "NACIMIENTO").getD "", (dictGet m "NUMERO").getD ""⟩,
              r2, s2)
        else .error (.proto .invalidBody, s2)

/-- The `for _ in range(n_bets)` loop of `NewBets.read_from`. On a
`ProtocolError` inside `__read_bet` the caller's `remaining` variable is
NOT updated (the assignment never happens), so the error also reports
`r`, the remaining value from before the failing call — exactly what the
`except` block in `read_from` will see. -/
def readBetsN (decode : List Nat → Option String) :
    Nat → List RawBet → ByteStream → Int →
    Except ((ReadErr × ByteStream) × Int) (List RawBet × Int × ByteStream)
  | 0, acc, s, r => .ok (acc, r, s)
  | n + 1, acc, s, r =>
    match readBet decode s r with
    | .error e => .error (e, r)
    | .ok (b, r1, s1) => readBetsN decode n (acc ++ [b]) s1 r1

/-- The `except ProtocolError` block of `NewBets.read_from`: when
`remaining > 0`, drain that many bytes with `recv_exactly` and re-raise;
a peer close during the drain surfaces as `EOFError`. -/
def drainThen (e : PError) (s : ByteStream) (remaining : Int) :
    Except (ReadErr × ByteStream) α :=
  if 0 < remaining then
    match recvExactly remaining.toNat s with
    | .ok (_, s1) => .error (.proto e, s1)
    | .error _ => .error (.eofErr, [])
  else .error (.proto e, s)

/-- `NewBets.read_from(sock, length)`. `range(n_bets)` is empty for a
negative `n_bets`, hence the `Int.toNat` iteration count; `amount` is
assigned the raw counter before the loop. -/
def newBetsReadFrom (decode : List Nat → Option String) (s : ByteStream) (len : Int) :
    Except (ReadErr × ByteStream) (NewBetsMsg × ByteStream) :=
  match readI32 s len with
  | .error (.proto e, s1) => drainThen e s1 len
  | .error (.eofErr, _) => .error (.eofErr, [])
  | .ok (nBets, r1, s1) =>
    match readBetsN decode nBets.toNat [] s1 r1 with
    | .error ((.proto e, s2), lastRem) => drainThen e s2 lastRem
    | .error ((.eofErr, _), _) => .error (.eofErr, [])
    | .ok (bets, r2, s2) =>
      if r2 ≠ 0 then drainThen .lengthMismatch s2 r2
      else .ok (⟨bets, nBets⟩, s2)

/-- `Finished.read_from`: fixed body length 4, no drain on error. -/
def finishedReadFrom (s : ByteStream) (len : Int) :
    Except (ReadErr × ByteStream) (Int × ByteStream) :=
  if len ≠ 4 then .error (.proto .invalidLength, s)
  else
    match readI32 s len with
    | .error e => .error e
    | .ok (agencyId, _, s1) => .ok (agencyId, s1)

/-- A decoded inbound message of the app variant (`protocol.recv_msg`
accepts only opcodes 0 and 3). -/
inductive AppMsg
  | newBets (m : NewBetsMsg)
  | finished (agencyId : Int)
deriving DecidableEq, Repr

/-- `read_u8` (`recv_exactly(sock, 1)[0]`). -/
def readU8 (s : ByteStream) : Except (ReadErr × ByteStream) (Nat × ByteStream) :=
  match recvExactly 1 s with
  | .error e => .error (e, [])
  | .ok (b, s1) => .ok (b.getD 0 0, s1)

/-- `protocol.recv_msg`: opcode byte, then `read_i32(sock, 4, -1)` for
the frame length, negative lengths rejected, dispatch on opcode. -/
def recvMsg (decode : List Nat → Option String) (s : ByteStream) :
    Except (ReadErr × ByteStream) (AppMsg × ByteStream) :=
  match readU8 s with
  | .error e => .error e
  | .ok (opcode, s1) =>
    match readI32 s1 4 with
    | .error e => .error e
    | .ok (len, _, s2) =>
      if len < 0 then .error (.proto .invalidLength, s2)
      else if opcode = 0 then
        match newBetsReadFrom decode s2 len with
        | .error e => .error e
        | .ok (m, s3) => .ok (.newBets m, s3)
      else if opcode = 3 then
        match finishedReadFrom s2 len with
        | .error e => .error e
        | .ok (a, s3) => .ok (.finished a, s3)
      else .error (.proto .invalidOpcode, s2)

/-! Writers. Python writes straight onto the socket with `sendall`; the
model emits the byte list that would be written. -/

/-- `s.encode("utf-8")` as a byte list (the bytes of `String.toUTF8`,
written out without the `ByteArray` wrapper). -/
def utf8Bytes (s : String) : List Nat :=
  (s.data.flatMap String.utf8EncodeChar).map (fun b => b.toNat)

/-- `write_u8`. -/
def writeU8 (v : Nat) : List Nat := [v]

/-- `write_i32`. -/
def writeI32 (v : Int) : List Nat := i32ToLE v

/-- `write_string(sock, s)`: `b = s.encode("utf-8"); write_i32(len(b));
sendall(b)` — prefixed by the UTF-8 BYTE count. -/
def writeString (s : String) : List Nat :=
  writeI32 (utf8Bytes s).length ++ utf8Bytes s

/-! Opcode table of `app/protocol.py` (no REQUEST_WINNERS; WINNERS is 4). -/

namespace AppOpcodes

def NEW_BETS : Nat := 0
def BETS_RECV_SUCCESS : Nat := 1
def BETS_RECV_FAIL : Nat := 2
def FINISHED : Nat := 3
def WINNERS : Nat := 4

end AppOpcodes

/-! Opcode table of `common/communication.py`. -/

namespace CommonOpcodes

def NEW_BETS : Nat := 0
def BETS_RECV_SUCCESS : Nat := 1
def BETS_RECV_FAIL : Nat := 2
def FINISHED : Nat := 3
def REQUEST_WINNERS : Nat := 4
def WINNERS : Nat := 5

end CommonOpcodes

/-- The body length computed by `Winners.write_to` in both variants:
`body_length = 4`, then `body_length += 4 + len(document)` per document
— `len` being the Python CHARACTER count of the string. -/
def winnersDeclaredLen (l : List String) : Nat :=
  l.foldl (fun acc d => acc + (4 + d.length)) 4

/-- `Winners.write_to`: opcode byte, declared body length, count, then
each document as a protocol string (whose actual payload is the UTF-8
byte encoding). Identical in both variants up to the opcode constant. -/
def winnersWriteTo (opcode : Nat) (l : List String) : List Nat :=
  writeU8 opcode ++ writeI32 (winnersDeclaredLen l) ++ writeI32 (l.length : Int)
    ++ (l.map writeString).flatten

/-- `BetsRecvSuccess.write_to` / `BetsRecvFail.write_to`: opcode and a
zero length. -/
def emptyBodyFrame (opcode : Nat) : List Nat :=
  writeU8 opcode ++ writeI32 0

/-! ### The app-variant server (`server/app/net.py`) -/

/-- `HandleConnAction` of `net.py`. -/
inductive HandleConnAction
  | CLOSE
  | EXIT
  | KEEP
deriving DecidableEq, Repr

/-- A response frame written back to a client socket. -/
inductive Resp
  | success
  | fail
  | winnersFrame (agencyId : Int) (docs : List String)
deriving DecidableEq, Repr

/-- `dict.get(agency_id, [])` on the winners mapping (insertion-ordered
association list; `find?` returns the entry for the key if present). -/
def winnersGet (m : List (Int × List String)) (a : Int) : List String :=
  ((m.find? (fun p => p.1 == a)).map (·.2)).getD []

/-- Mutable server state of `net.Server`: the `_finished` deque of
`(agency_id, socket)` pairs, the `_winners` dict, plus a ghost counter
of how many times `__raffle` has been invoked. -/
structure AppState where
  finished : List (Int × Nat)
  winners : List (Int × List String)
  raffleRuns : Nat
deriving DecidableEq, Repr

/-- `net.Server.__raffle`: `self._winners = service.compute_winners()`.
`service.compute_winners` is not among the sources (`service.py` holds
only `store_bets`), so its outcome is an oracle: `some w` when it
returns `w`, `none` when it raises (then `_winners` is left unchanged
and the failure is only logged). The ghost `raffleRuns` counts
invocations. -/
def appRaffle (raffleResult : Option (List (Int × List String))) (st : AppState) : AppState :=
  match raffleResult with
  | some w => { st with winners := w, raffleRuns := st.raffleRuns + 1 }
  | none => { st with raffleRuns := st.raffleRuns + 1 }

/-- Result of one `net.Server.__process_msg` call: new state, frames
written (tagged with the destination socket), sockets closed inside the
call, and the returned `HandleConnAction`. -/
structure AppStepOut where
  st : AppState
  resps : List (Nat × Resp)
  closes : List Nat
  act : HandleConnAction
deriving DecidableEq, Repr

/-- `net.Server.__process_msg`. `storeOk` is the oracle for whether
`service.store_bets(msg.bets)` raised. On FINISHED the pair is appended
to the `_finished` deque (duplicates and all) and the raffle fires when
the DEQUE LENGTH equals `clients_amount`; the queue is then drained,
sending each queued socket its winners (`__send_winners`) and closing
it. -/
def appProcessMsg (clientsAmount : Nat) (storeOk : List RawBet → Bool)
    (raffleResult : Option (List (Int × List String)))
    (st : AppState) (msg : AppMsg) (sock : Nat) : AppStepOut :=
  match msg with
  | .newBets m =>
    if storeOk m.bets then ⟨st, [(sock, .success)], [], .KEEP⟩
    else ⟨st, [(sock, .fail)], [], .CLOSE⟩
  | .finished agencyId =>
    let fin := st.finished ++ [(agencyId, sock)]
    if fin.length = clientsAmount then
      let st1 := appRaffle raffleResult { st with finished := fin }
      ⟨{ st1 with finished := [] },
        fin.map (fun p => (p.2, Resp.winnersFrame p.1 (winnersGet st1.winners p.1))),
        fin.map (·.2), .EXIT⟩
    else ⟨{ st with finished := fin }, [], [], .EXIT⟩

/-- One iteration's outcome as seen by `__handle_client_connection`:
either a decoded message or one of the caught exceptions. -/
inductive NetEvent
  | msg (m : AppMsg)
  | protoErr
  | eofEv
  | osErr
deriving DecidableEq, Repr

/-- Accumulated observable effects of `__handle_client_connection`:
final state, frames written, sockets closed, and whether the handler
returned (`exited = false` means it is still blocked reading). -/
structure AppLoopOut where
  st : AppState
  resps : List (Nat × Resp)
  closes : List Nat
  exited : Bool
deriving DecidableEq, Repr

/-- `net.Server.__handle_client_connection`, driven by the list of read
outcomes. `curr` is `curr_handle_conn_action`, initially CLOSE; a
`ProtocolError` is logged and the loop continues; EOF and `OSError`
break, and the socket is closed at exit only when `curr` is CLOSE. -/
def appHandleLoop (clientsAmount : Nat) (storeOk : List RawBet → Bool)
    (raffleResult : Option (List (Int × List String))) (sock : Nat) :
    List NetEvent → AppState → HandleConnAction → AppLoopOut
  | [], st, _ => ⟨st, [], [], false⟩
  | e :: evs, st, curr =>
    match e with
    | .protoErr => appHandleLoop clientsAmount storeOk raffleResult sock evs st curr
    | .eofEv => ⟨st, [], if curr = .CLOSE then [sock] else [], true⟩
    | .osErr => ⟨st, [], if curr = .CLOSE then [sock] else [], true⟩
    | .msg m =>
      let out := appProcessMsg clientsAmount storeOk raffleResult st m sock
      if out.act = .KEEP then
        let rest := appHandleLoop clientsAmount storeOk raffleResult sock evs out.st out.act
        ⟨rest.st, out.resps ++ rest.resps, out.closes ++ rest.closes, rest.exited⟩
      else
        ⟨out.st, out.resps, out.closes ++ (if out.act = .CLOSE then [sock] else []), true⟩

/-! ### The common-variant server (`server/common/server.py`) -/

/-- Modelled from the spec: `utils.Bet` comes from the storage
collaborator (`common/utils.py`, out of scope per spec §1 and absent
from the sources); the raffle in `common/server.py` reads only
`b.agency` and `b.document` of it. -/
structure Bet where
  agency : Int
  document : String
deriving DecidableEq, Repr

/-- `self._winners.setdefault(w[0], []).append(w[1])`: append to the
entry of key `k`, creating it at the end when absent. -/
def setdefaultAppend (m : List (Int × List String)) (k : Int) (v : String) :
    List (Int × List String) :=
  match m with
  | [] => [(k, [v])]
  | p :: rest => if p.1 = k then (p.1, p.2 ++ [v]) :: rest else p :: setdefaultAppend rest k v

/-- The `for w in winners` loop of `common.Server.__raffle`. -/
def groupWinners (ps : List (Int × String)) (m0 : List (Int × List String)) :
    List (Int × List String) :=
  ps.foldl (fun m p => setdefaultAppend m p.1 p.2) m0

/-- `[(b.agency, b.document) for b in bets if has_won(b)]`. -/
def commonRaffleWinners (hasWon : Bet → Bool) (bets : List Bet) : List (Int × String) :=
  (bets.filter hasWon).map (fun b => (b.agency, b.document))

/-- Mutable state of `common.Server`: `_finished` (a Python set, held as
a duplicate-free list), `_winners`, `_raffle_done`, plus a ghost counter
of `__raffle` invocations. -/
structure CommonState where
  finished : List Int
  winners : List (Int × List String)
  raffleDone : Bool
  raffleRuns : Nat
deriving DecidableEq, Repr

/-- `common.Server.__init__` state: empty set, empty dict, latch off. -/
def commonInitState : CommonState := ⟨[], [], false, 0⟩

/-- `set.add`. -/
def setAdd (l : List Int) (x : Int) : List Int :=
  if x ∈ l then l else l ++ [x]

/-- `common.Server.__raffle`. `loadResult` is the oracle for
`utils.load_bets()` (external storage collaborator): `some bets` when it
returns, `none` when the body raises — then the error is logged, and
`_raffle_done` is NOT set. On success the winning documents are grouped
into `_winners` and `_raffle_done` is set. -/
def commonRaffle (hasWon : Bet → Bool) (loadResult : Option (List Bet))
    (st : CommonState) : CommonState :=
  match loadResult with
  | none => { st with raffleRuns := st.raffleRuns + 1 }
  | some bets =>
    { st with
      winners := groupWinners (commonRaffleWinners hasWon bets) st.winners
      raffleDone := true
      raffleRuns := st.raffleRuns + 1 }

/-- Inbound messages of the common variant (`communication.recv_msg`
also accepts REQUEST_WINNERS, opcode 4). -/
inductive CommonMsg
  | newBets (m : NewBetsMsg)
  | finished (agencyId : Int)
  | requestWinners (agencyId : Int)
deriving DecidableEq, Repr

/-- Result of one `common.Server.__process_msg` call: new state, frames
written, and the returned boolean (`true` = keep reading). -/
structure CommonStepOut where
  st : CommonState
  resps : List Resp
  cont : Bool
deriving DecidableEq, Repr

/-- `common.Server.__process_msg`. NEW_BETS answers SUCCESS or FAIL and
returns True either way; FINISHED adds to the `_finished` set and runs
the raffle when the set size equals the literal 5 (hardcoded at
`server.py:88` — the common Server takes no `clients_amount`) and the
latch is off; REQUEST_WINNERS answers only after the raffle and only to
agencies in `_finished`. -/
def commonProcessMsg (storeOk : List RawBet → Bool) (hasWon : Bet → Bool)
    (loadResult : Option (List Bet)) (st : CommonState) (msg : CommonMsg) :
    CommonStepOut :=
  match msg with
  | .newBets m =>
    if storeOk m.bets then ⟨st, [.success], true⟩ else ⟨st, [.fail], true⟩
  | .finished agencyId =>
    let st1 := { st with finished := setAdd st.finished agencyId }
    if st1.finished.length = 5 ∧ st1.raffleDone = false then
      ⟨commonRaffle hasWon loadResult st1, [], false⟩
    else ⟨st1, [], false⟩
  | .requestWinners agencyId =>
    if st.raffleDone = true ∧ agencyId ∈ st.finished then
      ⟨st, [.winnersFrame agencyId (winnersGet st.winners agencyId)], false⟩
    else ⟨st, [], false⟩

/-- Read-loop outcomes for the common handler. -/
inductive CommonEvent
  | msg (m : CommonMsg)
  | protoErr
  | eofEv
  | osErr
deriving DecidableEq, Repr

/-- Accumulated observable effects of the common
`__handle_client_connection`. -/
structure CommonLoopOut where
  st : CommonState
  resps : List Resp
  closes : List Nat
  exited : Bool
deriving DecidableEq, Repr

/-- `common.Server.__handle_client_connection`: ProtocolError is logged
and the loop continues; EOF and OSError break; when `__process_msg`
returns False the loop breaks; in EVERY return path `client_sock.close()`
runs once, after the loop. -/
def commonHandleLoop (storeOk : List RawBet → Bool) (hasWon : Bet → Bool)
    (loadResult : Option (List Bet)) (sock : Nat) :
    List CommonEvent → CommonState → CommonLoopOut
  | [], st => ⟨st, [], [], false⟩
  | e :: evs, st =>
    match e with
    | .protoErr => commonHandleLoop storeOk hasWon loadResult sock evs st
    | .eofEv => ⟨st, [], [sock], true⟩
    | .osErr => ⟨st, [], [sock], true⟩
    | .msg m =>
      let out := commonProcessMsg storeOk hasWon loadResult st m
      if out.cont then
        let rest := commonHandleLoop storeOk hasWon loadResult sock evs out.st
        ⟨rest.st, out.resps ++ rest.resps, rest.closes, rest.exited⟩
      else ⟨out.st, out.resps, [sock], true⟩

/-! ### Helper lemmas -/

/-- `__raffle` bumps the invocation counter whether `compute_winners`
returns or raises. -/
theorem appRaffle_runs (r : Option (List (Int × List String))) (st : AppState) :
    (appRaffle r st).raffleRuns = st.raffleRuns + 1 := by
  cases r <;> rfl

theorem winnersGet_setdefaultAppend (m : List (Int × List String)) (k : Int) (v : String)
    (a : Int) :
    winnersGet (setdefaultAppend m k v) a =
      winnersGet m a ++ (if k = a then [v] else []) := by
  induction m with
  | nil =>
    by_cases h : k = a <;> simp [setdefaultAppend, winnersGet, h]
  | cons p rest ih =>
    by_cases hpk : p.1 = k
    · by_cases hpa : p.1 = a
      · simp [setdefaultAppend, winnersGet, hpk, hpa, hpk ▸ hpa]
      · have hka : ¬ k = a := fun hk => hpa (hpk.trans hk)
        simp [setdefaultAppend, winnersGet, hpk, hpa, hka]
    · by_cases hpa : p.1 = a
      · have hka : ¬ k = a := fun hk => hpk (hpa.trans hk.symm)
        have hak : ¬ a = k := fun hk => hka hk.symm
        simp [setdefaultAppend, winnersGet, hpk, hpa, hka, hak]
      · simpa [setdefaultAppend, winnersGet, hpk, hpa] using ih

theorem winnersGet_groupWinners (ps : List (Int × String)) (m : List (Int × List String))
    (a : Int) :
    winnersGet (groupWinners ps m) a =
      winnersGet m a ++ (ps.filter (fun p => p.1 == a)).map (·.2) := by
  induction ps generalizing m with
  | nil => simp [groupWinners]
  | cons p ps ih =>
    simp only [groupWinners, List.foldl_cons] at *
    rw [ih (setdefaultAppend m p.1 p.2), winnersGet_setdefaultAppend]
    by_cases h : p.1 = a <;> simp [h, List.filter_cons]

theorem raffleWinners_filter (hasWon : Bet → Bool) (bets : List Bet) (a : Int) :
    ((commonRaffleWinners hasWon bets).filter (fun p => p.1 == a)).map (·.2) =
      (bets.filter (fun b => b.agency == a && hasWon b)).map (·.document) := by
  induction bets with
  | nil => rfl
  | cons b bs ih =>
    simp only [commonRaffleWinners, List.filter_cons] at *
    cases hw : hasWon b <;> by_cases ha : b.agency = a <;>
      simp [hw, ha, List.filter_cons, ih]

theorem writeString_length (d : String) :
    (writeString d).length = 4 + (utf8Bytes d).length := by
  simp [writeString, writeI32, i32ToLE]
  omega

theorem winnersDeclaredLen_eq (l : List String) (c : Nat) :
    l.foldl (fun acc d => acc + (4 + d.length)) c =
      c + (l.map (fun d => 4 + d.length)).sum := by
  induction l generalizing c with
  | nil => simp
  | cons d l ih => simp [ih, Nat.add_assoc]

/-! ### Claims -/

/-- C1 (corrected). Claimed: with `clients_amount = N` the raffle fires
exactly when the number of DISTINCT agencies that signaled FINISHED
reaches `N`, duplicates not advancing the count. Counterexample on
`app/net.py`: with `clients_amount = 2`, two FINISHED messages from the
SAME agency 1 (sockets 10 and 11) make the `_finished` deque reach
length 2, and the raffle runs (`raffleRuns = 1`) although only one
distinct agency (`[1, 1].dedup.length = 1 ≠ 2`) has signaled. -/
theorem C1_counterexample :
    (appProcessMsg 2 (fun _ => true) (some [])
        (appProcessMsg 2 (fun _ => true) (some []) ⟨[], [], 0⟩ (.finished 1) 10).st
        (.finished 1) 11).st.raffleRuns = 1 ∧
    ([1, 1] : List Int).dedup.length = 1 ∧ (1 : Nat) ≠ 2 :=
  ⟨rfl, by decide, by decide⟩

/-- C1 (amended). In `app/net.py` the raffle is invoked exactly when the
LENGTH of the `_finished` deque — counting duplicate agency ids — reaches
`clients_amount` after the new FINISHED is appended; FINISHED always
yields the EXIT action. -/
theorem C1_raffle_trigger (N : Nat) (storeOk : List RawBet → Bool)
    (raffleResult : Option (List (Int × List String))) (st : AppState) (a : Int)
    (sock : Nat) :
    (appProcessMsg N storeOk raffleResult st (.finished a) sock).st.raffleRuns =
      st.raffleRuns + (if st.finished.length + 1 = N then 1 else 0) ∧
    (appProcessMsg N storeOk raffleResult st (.finished a) sock).act = .EXIT := by
  simp only [appProcessMsg, List.length_append, List.length_singleton]
  by_cases h : st.finished.length + 1 = N
  · simp [h, appRaffle_runs]
  · simp [h]

/-- C2 (code bug). Claimed (and stated by the docstring of
`net.Server.__raffle`): the raffle computation runs at most once per
process lifetime. But `__process_msg` has no raffle-done latch and
drains the `_finished` deque after the raffle, so refilling the deque to
`clients_amount` runs it again: with `clients_amount = 1`, two FINISHED
messages invoke `__raffle` twice. -/
theorem C2_raffle_twice :
    (appProcessMsg 1 (fun _ => true) (some [])
        (appProcessMsg 1 (fun _ => true) (some []) ⟨[], [], 0⟩ (.finished 1) 10).st
        (.finished 1) 11).st.raffleRuns = 2 :=
  rfl

/-- C3 (confirmed). After the raffle, the winner list for agency `a` —
both as stored in `_winners` and as carried by the WINNERS response that
`__process_msg` emits for `a` — is exactly the documents of the loaded
bets `b` with `b.agency == a` and `has_won b`, in load order (empty when
the agency has no winners, via `dict.get(a, [])`). -/
theorem C3_winners_exact (storeOk : List RawBet → Bool) (hasWon : Bet → Bool)
    (loadResult : Option (List Bet)) (bets : List Bet) (a : Int) :
    winnersGet (commonRaffle hasWon (some bets) commonInitState).winners a =
      (bets.filter (fun b => b.agency == a && hasWon b)).map (·.document) ∧
    (commonProcessMsg storeOk hasWon loadResult
        { commonRaffle hasWon (some bets) commonInitState with finished := [a] }
        (.requestWinners a)).resps =
      [.winnersFrame a ((bets.filter (fun b => b.agency == a && hasWon b)).map (·.document))] := by
  have hget : winnersGet (commonRaffle hasWon (some bets) commonInitState).winners a =
      (bets.filter (fun b => b.agency == a && hasWon b)).map (·.document) := by
    rw [show (commonRaffle hasWon (some bets) commonInitState).winners =
        groupWinners (commonRaffleWinners hasWon bets) [] from rfl]
    rw [winnersGet_groupWinners, raffleWinners_filter]
    simp [winnersGet]
  have hdone : (commonRaffle hasWon (some bets) commonInitState).raffleDone = true := rfl
  refine ⟨hget, ?_⟩
  simp [commonProcessMsg, hdone, hget]

/-- The failing NEW_BETS frame for C4: opcode 0, declared body length
12, body `n_bets = 1` then `n_pairs = 5` (invalid) then 4 filler bytes,
followed on the stream by a FINISHED(7) frame. -/
def c4Stream : ByteStream :=
  [0] ++ i32ToLE 12 ++ [1, 0, 0, 0] ++ [5, 0, 0, 0] ++ [9, 9, 9, 9] ++ [3] ++ i32ToLE 4
    ++ [7, 0, 0, 0]

/-- C4 (code bug). Claimed (and promised by the docstring of
`NewBets.read_from`): on a mid-parse `ProtocolError` the codec drains
exactly the unread body bytes, so the frame consumes `1 + 4 +
body_length` bytes. But the `except` block drains `remaining` as last
assigned at the TOP level of `read_from`; the 4 bytes already consumed
inside the failing `__read_bet` (the `n_pairs` field) are not
subtracted, so the 26-byte stream above has 21 bytes consumed instead of
`1 + 4 + 12 = 17`, eating 4 bytes of the next frame. -/
theorem C4_drain_overreads :
    ∀ decode : List Nat → Option String,
      recvMsg decode c4Stream = .error (.proto .invalidBody, [0, 7, 0, 0, 0]) ∧
      c4Stream.length - ([0, 7, 0, 0, 0] : List Nat).length = 21 ∧
      (21 : Nat) ≠ 1 + 4 + 12 :=
  fun _ => ⟨rfl, rfl, by decide⟩

/-- The concrete valid bet used by the session-loop counterexamples. -/
def sampleBet : RawBet := ⟨"1", "a", "b", "c", "d", "e"⟩

/-- C5 (corrected). Claimed: a `ProtocolError` while receiving yields a
best-effort BETS_RECV_FAIL and terminates the session. Counterexample on
`app/net.py`: after a `ProtocolError` event the loop goes on to process
the next NEW_BETS (answering SUCCESS); no FAIL frame is written for the
error, no socket is closed, and the handler has not exited. -/
theorem C5_counterexample :
    appHandleLoop 2 (fun _ => true) (some []) 10
        [.protoErr, .msg (.newBets ⟨[sampleBet], 1⟩)] ⟨[], [], 0⟩ .CLOSE =
      ⟨⟨[], [], 0⟩, [(10, .success)], [], false⟩ :=
  rfl

/-- C5 (amended). In both variants a `ProtocolError` while receiving is
only logged: the handler continues with the remaining events exactly as
if the error had not occurred — no BETS_RECV_FAIL response, no close, no
session termination. -/
theorem C5_protoErr_continue (N : Nat) (storeOk : List RawBet → Bool)
    (raffleResult : Option (List (Int × List String))) (sock : Nat)
    (evs : List NetEvent) (st : AppState) (curr : HandleConnAction)
    (cstoreOk : List RawBet → Bool) (hasWon : Bet → Bool) (loadResult : Option (List Bet))
    (cevs : List CommonEvent) (cst : CommonState) :
    appHandleLoop N storeOk raffleResult sock (.protoErr :: evs) st curr =
      appHandleLoop N storeOk raffleResult sock evs st curr ∧
    commonHandleLoop cstoreOk hasWon loadResult sock (.protoErr :: cevs) cst =
      commonHandleLoop cstoreOk hasWon loadResult sock cevs cst :=
  ⟨rfl, rfl⟩

/-- C6 (corrected). Claimed: a NEW_BETS storage failure answers
BETS_RECV_FAIL and the session CONTINUES. Counterexample on
`app/net.py`: with failing storage, the first NEW_BETS gets FAIL, the
socket is closed and the handler exits — the second NEW_BETS event is
never processed. -/
theorem C6_counterexample :
    appHandleLoop 2 (fun _ => false) (some []) 10
        [.msg (.newBets ⟨[sampleBet], 1⟩), .msg (.newBets ⟨[sampleBet], 1⟩)]
        ⟨[], [], 0⟩ .CLOSE =
      ⟨⟨[], [], 0⟩, [(10, .fail)], [10], true⟩ :=
  rfl

/-- C6 (amended). On a NEW_BETS whose store fails, both variants write
BETS_RECV_FAIL and log; `common/server.py` then continues reading
(returns True), but `app/net.py` returns CLOSE, terminating the
session. -/
theorem C6_store_fail_behavior (N : Nat) (storeOk : List RawBet → Bool)
    (raffleResult : Option (List (Int × List String))) (st : AppState)
    (m : NewBetsMsg) (sock : Nat) (hasWon : Bet → Bool)
    (loadResult : Option (List Bet)) (cst : CommonState)
    (hfail : storeOk m.bets = false) :
    appProcessMsg N storeOk raffleResult st (.newBets m) sock =
      ⟨st, [(sock, .fail)], [], .CLOSE⟩ ∧
    commonProcessMsg storeOk hasWon loadResult cst (.newBets m) = ⟨cst, [.fail], true⟩ := by
  constructor <;> simp [appProcessMsg, commonProcessMsg, hfail]

theorem C6_store_fail_behavior_witness :
    (fun _ : List RawBet => false) (NewBetsMsg.mk [] 0).bets = false ∧
    (appProcessMsg 2 (fun _ => false) (some []) ⟨[], [], 0⟩ (.newBets ⟨[], 0⟩) 10 =
        ⟨⟨[], [], 0⟩, [(10, .fail)], [], .CLOSE⟩ ∧
      commonProcessMsg (fun _ => false) (fun _ => true) (some []) commonInitState
          (.newBets ⟨[], 0⟩) =
        ⟨commonInitState, [.fail], true⟩) :=
  ⟨rfl, C6_store_fail_behavior 2 (fun _ => false) (some []) ⟨[], [], 0⟩ ⟨[], 0⟩ 10
    (fun _ => true) (some []) commonInitState rfl⟩

/-- C7 (corrected). Claimed: the declared WINNERS body length always
equals the bytes written, non-ASCII documents included. Counterexample:
for the one-document list `["ñ"]`, `write_to` declares `4 + (4 + 1) = 9`
(Python `len` counts characters) but writes a 10-byte body (the UTF-8
encoding of `"ñ"` is 2 bytes), a 15-byte frame in all. -/
theorem C7_counterexample :
    winnersDeclaredLen ["ñ"] = 9 ∧
    (winnersWriteTo AppOpcodes.WINNERS ["ñ"]).length = 1 + 4 + 10 ∧
    (utf8Bytes "ñ").length = 2 ∧ ("ñ" : String).length = 1 :=
  ⟨rfl, rfl, rfl, rfl⟩

/-- C7 (amended). The declared body length equals the number of body
bytes actually written whenever every document's UTF-8 encoding has as
many bytes as the document has characters (in particular for ASCII
documents); then the whole frame is `1 + 4 + declared` bytes long. -/
theorem C7_selfconsistent_ascii (opcode : Nat) (l : List String)
    (h : ∀ d ∈ l, (utf8Bytes d).length = d.length) :
    (winnersWriteTo opcode l).length = 1 + 4 + (4 + winnersDeclaredLen l) - 4 ∧
    (winnersWriteTo opcode l).length - (1 + 4) = winnersDeclaredLen l := by
  have hmap : (l.map writeString).map List.length = l.map (fun d => 4 + d.length) := by
    rw [List.map_map]
    exact List.map_congr_left fun d hd => by
      simp [Function.comp, writeString_length, h d hd]
  have hlen : (winnersWriteTo opcode l).length =
      1 + 4 + 4 + (l.map (fun d => 4 + d.length)).sum := by
    simp [winnersWriteTo, writeU8, writeI32, i32ToLE, ← hmap]
    omega
  have hdecl : winnersDeclaredLen l = 4 + (l.map (fun d => 4 + d.length)).sum :=
    winnersDeclaredLen_eq l 4
  constructor <;> omega

theorem C7_selfconsistent_ascii_witness :
    (∀ d ∈ (["abc"] : List String), (utf8Bytes d).length = d.length) ∧
    ((winnersWriteTo 5 ["abc"]).length = 1 + 4 + (4 + winnersDeclaredLen ["abc"]) - 4 ∧
      (winnersWriteTo 5 ["abc"]).length - (1 + 4) = winnersDeclaredLen ["abc"]) :=
  ⟨by decide, C7_selfconsistent_ascii 5 ["abc"] (by decide)⟩

/-- C8 (corrected). Claimed: WINNERS frames carry opcode 5.
Counterexample on `app/protocol.py`: its opcode table assigns
`WINNERS = 4` (REQUEST_WINNERS does not exist there), so the app
variant's WINNERS frames start with byte 4, not 5. -/
theorem C8_counterexample :
    (winnersWriteTo AppOpcodes.WINNERS ["x"]).headD 0 = 4 ∧ AppOpcodes.WINNERS ≠ 5 :=
  ⟨rfl, by decide⟩

/-- C8 (amended). WINNERS frames carry opcode 5 in the
`common/communication.py` variant; in the `app/protocol.py` variant they
carry opcode 4. -/
theorem C8_opcodes (l : List String) :
    (winnersWriteTo CommonOpcodes.WINNERS l).headD 0 = 5 ∧
    (winnersWriteTo AppOpcodes.WINNERS l).headD 0 = 4 :=
  ⟨rfl, rfl⟩

/-- C9 (corrected). Claimed: on every session exit path the client
socket is closed exactly once. Counterexample on `app/net.py`: a
successful NEW_BETS leaves `curr_handle_conn_action = KEEP`, so a
following EOF breaks the loop WITHOUT closing — the handler exits with
no close at all. -/
theorem C9_counterexample :
    appHandleLoop 2 (fun _ => true) (some []) 10
        [.msg (.newBets ⟨[sampleBet], 1⟩), .eofEv] ⟨[], [], 0⟩ .CLOSE =
      ⟨⟨[], [], 0⟩, [(10, .success)], [], true⟩ :=
  rfl

/-- C9 (amended). In `common/server.py` every exit path of
`__handle_client_connection` closes the client socket exactly once (the
unconditional `close` after the loop); in `app/net.py` the exit close
happens only when the last action was CLOSE. -/
theorem C9_common_closes_once (storeOk : List RawBet → Bool) (hasWon : Bet → Bool)
    (loadResult : Option (List Bet)) (sock : Nat) (evs : List CommonEvent)
    (st : CommonState)
    (h : (commonHandleLoop storeOk hasWon loadResult sock evs st).exited = true) :
    (commonHandleLoop storeOk hasWon loadResult sock evs st).closes = [sock] := by
  induction evs generalizing st with
  | nil => simp [commonHandleLoop] at h
  | cons e evs ih =>
    cases e with
    | protoErr =>
      simp only [commonHandleLoop] at h ⊢
      exact ih _ h
    | eofEv => rfl
    | osErr => rfl
    | msg m =>
      simp only [commonHandleLoop] at h ⊢
      by_cases hc : (commonProcessMsg storeOk hasWon loadResult st m).cont
      · simp only [hc, if_true] at h ⊢
        exact ih _ h
      · simp [hc]

theorem C9_common_closes_once_witness :
    (commonHandleLoop (fun _ => true) (fun _ => true) (some []) 7 [.eofEv]
        commonInitState).exited = true ∧
    (commonHandleLoop (fun _ => true) (fun _ => true) (some []) 7 [.eofEv]
        commonInitState).closes = [7] :=
  ⟨rfl, C9_common_closes_once (fun _ => true) (fun _ => true) (some []) 7 [.eofEv]
    commonInitState rfl⟩

/-- C10 (confirmed). A NEW_BETS frame of declared body length 4 whose
`n_bets` field is negative decodes without error: `range(n_bets)` is
empty, `remaining` is 0 after the counter, so the message comes back
with an empty bets list and `amount` equal to the negative counter; the
handler then calls `store_bets` on the empty list and — when storage
accepts it — answers BETS_RECV_SUCCESS and keeps the session open. -/
theorem C10_negative_nbets (decode : List Nat → Option String) (b : List Nat)
    (rest : ByteStream) (N : Nat) (storeOk : List RawBet → Bool)
    (raffleResult : Option (List (Int × List String))) (st : AppState) (sock : Nat)
    (hlen : b.length = 4) (hneg : i32ofLE b < 0) (hstore : storeOk [] = true) :
    newBetsReadFrom decode (b ++ rest) 4 = .ok (⟨[], i32ofLE b⟩, rest) ∧
    appProcessMsg N storeOk raffleResult st (.newBets ⟨[], i32ofLE b⟩) sock =
      ⟨st, [(sock, .success)], [], .KEEP⟩ := by
  constructor
  · have htake : (b ++ rest).take 4 = b := by
      rw [← hlen]; exact List.take_left b rest
    have hdrop : (b ++ rest).drop 4 = rest := by
      rw [← hlen]; exact List.drop_left b rest
    have hlen4 : 4 ≤ b.length + rest.length := by simp [hlen]
    have htoNat : (i32ofLE b).toNat = 0 := Int.toNat_eq_zero.mpr hneg.le
    simp [newBetsReadFrom, readI32, recvExactly, hlen4, htake, hdrop, htoNat, readBetsN]
  · simp [appProcessMsg, hstore]

theorem C10_negative_nbets_witness :
    ([255, 255, 255, 255] : List Nat).length = 4 ∧
    i32ofLE [255, 255, 255, 255] < 0 ∧
    (fun _ : List RawBet => true) ([] : List RawBet) = true ∧
    (newBetsReadFrom (fun _ => none) ([255, 255, 255, 255] ++ []) 4 =
        .ok (⟨[], i32ofLE [255, 255, 255, 255]⟩, []) ∧
      appProcessMsg 2 (fun _ => true) (some []) ⟨[], [], 0⟩
          (.newBets ⟨[], i32ofLE [255, 255, 255, 255]⟩) 10 =
        ⟨⟨[], [], 0⟩, [(10, .success)], [], .KEEP⟩) :=
  ⟨rfl, by decide, rfl,
    C10_negative_nbets (fun _ => none) [255, 255, 255, 255] [] 2 (fun _ => true)
      (some []) ⟨[], [], 0⟩ 10 rfl (by decide) rfl⟩

end TP0
